import Mathlib

/-!
Verification development for the MDALT repository (pool-based active
learning).  The Python sources under `src/mdalth` and `src/tmp/stopping`
are shallowly embedded below: Python floats that always hold exact small
decimals are modelled as rationals, Python ints as `ℤ`/`ℕ`, raised
exceptions as `Except Err`, and `collections.deque(maxlen=w)` as a list
truncated from the left on append.  Stateful objects (Config, Learner,
Evaluator, the stoppers) are embedded as explicit state-passing functions.
-/

namespace MDALT

/-- Error kinds of the spec's error taxonomy (section 7): Python
`RuntimeError`/`ValueError`/`IndexError` map to `InvalidInput`, failed
`assert` to `InvalidState`, `StopIteration` to `StopIter`. -/
inductive Err where
  | InvalidInput
  | InvalidState
  | StopIter
  | AlreadyExists
  | NotFound
deriving DecidableEq, Repr

deriving instance DecidableEq for Except

/-- Python `int(q)` on a real value truncates toward zero; on a rational
this is the floor for nonnegative `q` and the ceiling for negative `q`. -/
def pyTrunc (q : ℚ) : ℤ :=
  if 0 ≤ q then ⌊q⌋ else ⌈q⌉

/-- Embeds `mdalth/utils.py`, `proportion_or_integer_to_int(x, total)`:

    if x >= 1.0 and x.is_integer(): return int(x)
    if 0 <= x <= 1.0 and total is not None: return int(x * total)
    raise RuntimeError(...)

`x.is_integer()` is `x.den = 1` on the rational embedding; the raised
`RuntimeError` is `Err.InvalidInput`. -/
def proportion_or_integer_to_int (x : ℚ) (total : Option ℤ) : Except Err ℤ :=
  if 1 ≤ x ∧ x.den = 1 then
    .ok (pyTrunc x)
  else if 0 ≤ x ∧ x ≤ 1 ∧ total.isSome then
    .ok (pyTrunc (x * ((total.getD 0 : ℤ) : ℚ)))
  else
    .error .InvalidInput

/-- Embeds `mdalth/learning.py`, `compute_total_al_iterations`:

    q, r = divmod(n_rows - n_start, n_query)
    return q if r == 0 else q + 1

Python `divmod` is floor division with floor remainder, i.e. `Int.fdiv` /
`Int.fmod`.  (Python raises `ZeroDivisionError` for `n_query = 0`; every
caller and every claim has `0 < n_query`, where `fdiv` is total anyway.) -/
def compute_total_al_iterations (n_rows n_start n_query : ℤ) : ℤ :=
  let q := (n_rows - n_start).fdiv n_query
  let r := (n_rows - n_start).fmod n_query
  if r = 0 then q else q + 1

/-- Helper: bind on a successful `Except` applies the continuation. -/
lemma except_bind_ok {e a b : Type} (x : a) (f : a → Except e b) :
    (Except.ok x >>= f) = f x := rfl

/-- Helper: map on a successful `Except` applies the function. -/
lemma except_map_ok {e a b : Type} (g : a → b) (x : a) :
    Except.map g (Except.ok (ε := e) x) = Except.ok (g x) := rfl

/-- Helper: an integral rational truncates to its numerator. -/
lemma pyTrunc_of_den_eq_one (x : ℚ) (hx : x.den = 1) : pyTrunc x = x.num := by
  have hx' : (x.num : ℚ) = x := (Rat.den_eq_one_iff x).mp hx
  unfold pyTrunc
  split
  · conv_lhs => rw [← hx']
    exact Int.floor_intCast x.num
  · conv_lhs => rw [← hx']
    exact Int.ceil_intCast x.num

/-- Helper: on nonnegative rationals Python truncation is the floor. -/
lemma pyTrunc_of_nonneg (q : ℚ) (h : 0 ≤ q) : pyTrunc q = ⌊q⌋ := by
  unfold pyTrunc
  exact if_pos h

/-- C1: `proportion_or_integer_to_int` returns `int(x)` when `x ≥ 1` has no
fractional part; returns `⌊x * total⌋` when `0 ≤ x ≤ 1`, a (nonnegative)
total is supplied and the absolute-count case does not apply; and fails
with `InvalidInput` in every other case — in particular for a fractional
`x` with no total, an `x` with a fractional part above 1, and a negative
`x`.  Concretely `(1/2, 20) ↦ 10`, `(5, none) ↦ 5`, `(1/2, none)` and
`(3/2, some 10)` fail. -/
theorem claim_c1_proportion_or_integer_cases :
    (∀ (x : ℚ) (total : Option ℤ), 1 ≤ x → x.den = 1 →
      proportion_or_integer_to_int x total = .ok x.num) ∧
    (∀ (x : ℚ) (t : ℤ), 0 ≤ x → x ≤ 1 → 0 ≤ t → ¬(1 ≤ x ∧ x.den = 1) →
      proportion_or_integer_to_int x (some t) = .ok ⌊x * (t : ℚ)⌋) ∧
    (∀ (x : ℚ) (total : Option ℤ), ¬(1 ≤ x ∧ x.den = 1) →
      ¬(0 ≤ x ∧ x ≤ 1 ∧ total.isSome) →
      proportion_or_integer_to_int x total = .error .InvalidInput) ∧
    proportion_or_integer_to_int (1/2) (some 20) = .ok 10 ∧
    proportion_or_integer_to_int 5 none = .ok 5 ∧
    proportion_or_integer_to_int (1/2) none = .error .InvalidInput ∧
    proportion_or_integer_to_int (3/2) (some 10) = .error .InvalidInput := by
  refine ⟨?_, ?_, ?_, by norm_num [proportion_or_integer_to_int, pyTrunc],
    by norm_num [proportion_or_integer_to_int, pyTrunc],
    by norm_num [proportion_or_integer_to_int, pyTrunc],
    by norm_num [proportion_or_integer_to_int, pyTrunc]⟩
  · intro x total h1 h2
    unfold proportion_or_integer_to_int
    rw [if_pos (⟨h1, h2⟩ : 1 ≤ x ∧ x.den = 1), pyTrunc_of_den_eq_one x h2]
  · intro x t h0 h1 ht hnot
    unfold proportion_or_integer_to_int
    rw [if_neg hnot, if_pos (⟨h0, h1, rfl⟩ : 0 ≤ x ∧ x ≤ 1 ∧ (some t).isSome)]
    have hxt : (0 : ℚ) ≤ x * ((t : ℤ) : ℚ) :=
      mul_nonneg h0 (by exact_mod_cast ht)
    rw [Option.getD_some, pyTrunc_of_nonneg _ hxt]
  · intro x total hnot1 hnot2
    unfold proportion_or_integer_to_int
    rw [if_neg hnot1, if_neg hnot2]

/-- C2: for `n_start < n_rows` and `0 < n_query`,
`compute_total_al_iterations` is exactly ceiling division of
`n_rows - n_start` by `n_query` — the quotient when the division is even,
the quotient plus one otherwise. -/
theorem claim_c2_total_iterations_is_ceil (n_rows n_start n_query : ℤ)
    (_hlt : n_start < n_rows) (hq : 0 < n_query) :
    compute_total_al_iterations n_rows n_start n_query =
      ⌈((n_rows - n_start : ℤ) : ℚ) / ((n_query : ℤ) : ℚ)⌉ := by
  set n : ℤ := n_rows - n_start with hn
  have hq0 : (0 : ℚ) < ((n_query : ℤ) : ℚ) := by exact_mod_cast hq
  have hfd : n.fdiv n_query = n / n_query := Int.fdiv_eq_ediv n hq.le
  have hfm : n.fmod n_query = n % n_query := Int.fmod_eq_emod n hq.le
  have hde : n_query * (n / n_query) + n % n_query = n := Int.ediv_add_emod n n_query
  have hr0 : 0 ≤ n % n_query := Int.emod_nonneg n hq.ne.symm
  have hrlt : n % n_query < n_query := Int.emod_lt_of_pos n hq
  unfold compute_total_al_iterations
  simp only [hfd, hfm]
  rcases eq_or_ne (n % n_query) 0 with h0 | h0
  · rw [if_pos h0]
    symm
    rw [Int.ceil_eq_iff]
    have hn1 : n_query * (n / n_query) = n := by
      rw [h0, add_zero] at hde
      exact hde
    constructor
    · rw [lt_div_iff₀ hq0]
      have hz : (n / n_query - 1) * n_query < n := by nlinarith [hn1, hq]
      exact_mod_cast hz
    · rw [div_le_iff₀ hq0]
      have hz : n ≤ (n / n_query) * n_query := by nlinarith [hn1]
      exact_mod_cast hz
  · rw [if_neg h0]
    symm
    rw [Int.ceil_eq_iff]
    have h0' : 0 < n % n_query := lt_of_le_of_ne hr0 (Ne.symm h0)
    constructor
    · rw [lt_div_iff₀ hq0]
      have hz : (n / n_query + 1 - 1) * n_query < n := by nlinarith [hde, h0']
      exact_mod_cast hz
    · rw [div_le_iff₀ hq0]
      have hz : n ≤ (n / n_query + 1) * n_query := by nlinarith [hde, hrlt]
      exact_mod_cast hz

/-- C2 witness: at `n_rows = 100`, `n_start = 10`, `n_query = 10` the
function yields exactly 9, which is the ceiling of `90 / 10`. -/
theorem claim_c2_witness :
    compute_total_al_iterations 100 10 10 = 9 ∧
    compute_total_al_iterations 100 10 10 =
      ⌈((100 - 10 : ℤ) : ℚ) / ((10 : ℤ) : ℚ)⌉ :=
  ⟨by decide, claim_c2_total_iterations_is_ceil 100 10 10 (by decide) (by decide)⟩

/-- Embeds the dataclass `Config` of `mdalth/learning.py`.  The
`ProportionOrInteger` hyperparameters are rationals (after `configure` the
resolved ones hold integral values, as the Python fields then hold ints);
`configured` is the Python private flag `_configured` (renamed: Lean's
structure-literal syntax rejects a leading underscore). -/
structure Config where
  n_rows : Option ℤ := none
  n_start : ℚ := 1/10
  n_query : ℚ := 1/10
  val_set_size : ℚ := 1/10
  n_iterations : ℚ := 1
  learn : Bool := false
  evaluate : Bool := false
  resume : Bool := false
  resume_from_checkpoint : Option ℤ := some 0
  configured : Bool := false
deriving DecidableEq, Repr

/-- Embeds `Config.configure`:

    assert not self._configured, ...
    self.n_rows = n_rows
    self.n_start = proportion_or_integer_to_int(self.n_start, self.n_rows)
    self.n_query = proportion_or_integer_to_int(self.n_query, self.n_rows)
    total = compute_total_al_iterations(self.n_rows, self.n_start, self.n_query)
    self.n_iterations = proportion_or_integer_to_int(self.n_iterations, total)
    if self.n_iterations > total: self.n_iterations = total  # with a warning
    self._configured = True

The failed assert is `Err.InvalidState`; it fires before any assignment,
so on that path the instance is unchanged (here: no updated value is
produced).  The non-fatal clamping warning has no observable effect beyond
the clamped value and is not modelled. -/
def Config.configure (c : Config) (n_rows : ℤ) : Except Err Config :=
  if c.configured then .error .InvalidState
  else do
    let n_start ← proportion_or_integer_to_int c.n_start (some n_rows)
    let n_query ← proportion_or_integer_to_int c.n_query (some n_rows)
    let total := compute_total_al_iterations n_rows n_start n_query
    let n_iterations ← proportion_or_integer_to_int c.n_iterations (some total)
    let n_iterations := if total < n_iterations then total else n_iterations
    .ok { c with
          n_rows := some n_rows
          n_start := (n_start : ℚ)
          n_query := (n_query : ℚ)
          n_iterations := (n_iterations : ℚ)
          configured := true }

/-- Embeds `Config.__post_init__`: starts unconfigured, then configures
immediately when `n_rows` is truthy (Python: both `None` and `0` are
falsy). -/
def Config.postInit (c : Config) : Except Err Config :=
  let c := { c with configured := false }
  match c.n_rows with
  | none => .ok c
  | some n => if n = 0 then .ok c else c.configure n

/-- C5: calling `configure` on an already-configured `Config` always fails
with `InvalidState`, whatever the argument; the Python assert fires before
any field assignment, so the call leaves every resolved field unchanged
(the embedding produces no updated value on this path). -/
theorem claim_c5_configure_rejects_reconfiguration
    (c : Config) (n : ℤ) (h : c.configured = true) :
    c.configure n = .error .InvalidState := by
  unfold Config.configure
  rw [if_pos h]

/-- C5 witness: a `Config` configured by an explicit `configure` call (here
with integral hyperparameters, at `n_rows = 100`) rejects a second
`configure` with `InvalidState`. -/
theorem claim_c5_witness :
    Config.configure { n_rows := none, n_start := 10, n_query := 10,
                       val_set_size := 25, n_iterations := 2 } 100 = .ok
      { n_rows := some 100, n_start := 10, n_query := 10, val_set_size := 25,
        n_iterations := 2, configured := true } ∧
    Config.configure { n_rows := some 100, n_start := 10, n_query := 10,
                       val_set_size := 25, n_iterations := 2, configured := true } 7
      = .error .InvalidState :=
  ⟨rfl, claim_c5_configure_rejects_reconfiguration _ 7 rfl⟩

/-- C9: at the boundary `x = 1` — which satisfies both the absolute-count
condition and the proportion condition — the absolute-count branch wins
for every total, including none: `proportion_or_integer_to_int 1 total`
is `1`.  Consequently the default `n_iterations = 1.0` resolves to a
single iteration: the otherwise-default `Config` built with
`n_rows = 100` has 9 feasible iterations but ends with `n_iterations = 1`. -/
theorem claim_c9_boundary_one_takes_absolute_branch :
    (∀ total : Option ℤ, proportion_or_integer_to_int 1 total = .ok 1) ∧
    compute_total_al_iterations 100 10 10 = 9 ∧
    (Config.postInit { n_rows := some 100 }).map Config.n_iterations = .ok 1 := by
  refine ⟨fun _ => rfl, by decide, ?_⟩
  norm_num [Config.postInit, Config.configure, proportion_or_integer_to_int,
    pyTrunc, compute_total_al_iterations, except_bind_ok, except_map_ok]
  decide

/-- Modelled from the spec: class `Pool` lives in `mdalth/helpers.py`,
which is not under `src/`.  Spec section 3: a dataset container plus the
labeled row indices; the unlabeled indices are the complement over
`0..num_rows`. -/
structure PoolS where
  n_rows : ℕ
  labeled_idx : List ℕ

/-- Unlabeled indices: the complement of the labeled set over the row
range, in row order. -/
def PoolS.unlabeled_idx (p : PoolS) : List ℕ :=
  (List.range p.n_rows).filter (fun i => !(p.labeled_idx.contains i))

/-- Labels a batch: moves its indices into the labeled set. -/
def PoolS.label (p : PoolS) (batch : List ℕ) : PoolS :=
  { p with labeled_idx := p.labeled_idx ++ batch }

/-- Embeds the batch-selection and iteration bookkeeping of class
`Learner` (`mdalth/learning.py`).  The training engine and disk
persistence are outside the embedded fragment: `μ` is the abstract model
type, `querier` is the configured querier wrapper — called exactly as in
`Learner.query`, `self.querier(self.config.n_query,
self.state.best_model)`, with the pool it closed over — and `n_start`,
`n_query`, `n_iterations` are the resolved `Config` counts. -/
structure LearnerS (μ : Type) where
  pool : PoolS
  n_start : ℕ
  n_query : ℕ
  n_iterations : ℕ
  querier : ℕ → μ → PoolS → List ℕ
  best_model : μ
  iteration : ℕ

/-- Embeds `Learner.query_first`:

    return RandomQuerier()(self.config.n_start, self.pool.unlabeled_idx)

`randQ` stands for the freshly constructed `RandomQuerier()` — its
sampling lives in `mdalth/querying.py`, not under `src/`, so it is an
uninterpreted sampling function here; note the configured `querier` field
is not consulted. -/
def LearnerS.query_first {μ : Type} (randQ : ℕ → List ℕ → List ℕ)
    (L : LearnerS μ) : List ℕ :=
  randQ L.n_start L.pool.unlabeled_idx

/-- Embeds `Learner.__call__`: errors unless the iteration counter is 0,
selects the initial batch via `query_first`, labels it, trains (`train`
abstracts the engine producing the new best model), and increments the
counter.  Returns the batch with the new state. -/
def learner_call {μ : Type} (randQ : ℕ → List ℕ → List ℕ)
    (train : PoolS → μ) (L : LearnerS μ) : Except Err (List ℕ × LearnerS μ) :=
  if L.iteration ≠ 0 then .error .InvalidState
  else
    let batch := L.query_first randQ
    let pool := L.pool.label batch
    .ok (batch, { L with pool := pool, best_model := train pool,
                         iteration := L.iteration + 1 })

/-- Embeds `Learner.__next__`: errors with `InvalidState` when the first
run has not happened, raises `StopIteration` once the counter exceeds
`len(self) = config.n_iterations`, and otherwise selects the batch via
the configured querier driven by the previous iteration's best model. -/
def learner_next {μ : Type} (train : PoolS → μ) (L : LearnerS μ) :
    Except Err (List ℕ × LearnerS μ) :=
  if L.iteration = 0 then .error .InvalidState
  else if L.n_iterations < L.iteration then .error .StopIter
  else
    let batch := L.querier L.n_query L.best_model L.pool
    let pool := L.pool.label batch
    .ok (batch, { L with pool := pool, best_model := train pool,
                         iteration := L.iteration + 1 })

/-- C3: the first run — valid exactly when the iteration counter is 0 —
draws its batch from the fresh unconditional random querier, of size
`n_start`, over the full unlabeled pool; its result is the same whatever
querier the `Learner` was constructed with; and the configured querier is
what every subsequent iterator advance uses. -/
theorem claim_c3_first_batch_unconditionally_random (μ : Type) :
    (∀ (randQ : ℕ → List ℕ → List ℕ) (train : PoolS → μ) (L : LearnerS μ),
      L.iteration = 0 →
      (learner_call randQ train L).map Prod.fst =
        .ok (randQ L.n_start L.pool.unlabeled_idx)) ∧
    (∀ (randQ : ℕ → List ℕ → List ℕ) (train : PoolS → μ) (L : LearnerS μ) q1 q2,
      (learner_call randQ train { L with querier := q1 }).map Prod.fst =
        (learner_call randQ train { L with querier := q2 }).map Prod.fst) ∧
    (∀ (randQ : ℕ → List ℕ → List ℕ) (train : PoolS → μ) (L : LearnerS μ),
      L.iteration ≠ 0 →
      learner_call randQ train L = .error .InvalidState) ∧
    (∀ (train : PoolS → μ) (L : LearnerS μ),
      L.iteration ≠ 0 → L.iteration ≤ L.n_iterations →
      (learner_next train L).map Prod.fst =
        .ok (L.querier L.n_query L.best_model L.pool)) := by
  refine ⟨?_, ?_, ?_, ?_⟩
  · intro randQ train L h
    simp [learner_call, LearnerS.query_first, h, except_map_ok]
  · intro randQ train L q1 q2
    by_cases h : L.iteration = 0 <;>
      simp [learner_call, LearnerS.query_first, h, except_map_ok]
  · intro randQ train L h
    simp [learner_call, h]
  · intro train L h1 h2
    unfold learner_next
    rw [if_neg h1, if_neg (Nat.not_lt.mpr h2)]
    rfl

/-- Embeds the iteration bookkeeping of class `Evaluator`
(`mdalth/learning.py`, `__next__` and `save_to_disk`): raises
`StopIteration` when the counter exceeds `len(self) =
config.n_iterations`; otherwise loads the iteration's batch, evaluates,
writes that iteration's test-metrics JSON file, and increments the
counter.  Disk and the training engine are abstracted: `metricsWritten`
records the iterations whose metrics files have been written. -/
structure EvaluatorS where
  n_iterations : ℕ
  iteration : ℕ
  metricsWritten : List ℕ

/-- One `Evaluator.__next__` advance. -/
def evaluator_next (E : EvaluatorS) : Except Err EvaluatorS :=
  if E.n_iterations < E.iteration then .error .StopIter
  else .ok { E with iteration := E.iteration + 1,
                    metricsWritten := E.metricsWritten ++ [E.iteration] }

/-- Runs `evaluator_next` to exhaustion, as `for _ in evaluator: pass`. -/
def evaluator_run (E : EvaluatorS) : EvaluatorS :=
  match h : evaluator_next E with
  | .error _ => E
  | .ok E' => evaluator_run E'
termination_by E.n_iterations + 1 - E.iteration
decreasing_by
  unfold evaluator_next at h
  split at h
  · exact absurd h (by simp)
  · rename_i hnot
    injection h with h
    subst h
    simp only []
    omega

/-- Helper: the full run appends one metrics record per iteration from the
current counter up to `n_iterations` inclusive. -/
lemma evaluator_run_metrics (k : ℕ) :
    ∀ E : EvaluatorS, E.n_iterations + 1 - E.iteration = k →
    (evaluator_run E).metricsWritten =
      E.metricsWritten ++ List.range' E.iteration k := by
  induction k with
  | zero =>
    intro E hE
    rw [evaluator_run]
    split
    · simp [List.range']
    · rename_i E' h
      unfold evaluator_next at h
      rw [if_pos (by omega)] at h
      exact absurd h (by simp)
  | succ k ih =>
    intro E hE
    rw [evaluator_run]
    split
    · rename_i e h
      unfold evaluator_next at h
      rw [if_neg (by omega)] at h
      exact absurd h (by simp)
    · rename_i E' h
      unfold evaluator_next at h
      rw [if_neg (by omega)] at h
      injection h with h
      subst h
      rw [ih _ (by simp; omega)]
      simp [List.range'_succ]

/-- C4: an `Evaluator` advance raises `StopIteration` exactly when the
iteration counter strictly exceeds the configured `n_iterations`; every
other advance succeeds and writes that iteration's metrics file.  Run to
exhaustion from iteration 0, the evaluator therefore writes metrics files
for iterations `0 .. n_iterations` inclusive — exactly
`n_iterations + 1` of them. -/
theorem claim_c4_evaluator_n_plus_one_advances :
    (∀ E : EvaluatorS,
      evaluator_next E = .error .StopIter ↔ E.n_iterations < E.iteration) ∧
    (∀ E : EvaluatorS, E.iteration ≤ E.n_iterations →
      evaluator_next E =
        .ok { E with iteration := E.iteration + 1,
                     metricsWritten := E.metricsWritten ++ [E.iteration] }) ∧
    (∀ N : ℕ,
      (evaluator_run { n_iterations := N, iteration := 0,
                       metricsWritten := [] }).metricsWritten =
        List.range (N + 1)) ∧
    (∀ N : ℕ,
      (evaluator_run { n_iterations := N, iteration := 0,
                       metricsWritten := [] }).metricsWritten.length =
        N + 1) := by
  have hrun : ∀ N : ℕ,
      (evaluator_run { n_iterations := N, iteration := 0,
                       metricsWritten := [] }).metricsWritten =
        List.range (N + 1) := by
    intro N
    rw [evaluator_run_metrics (N + 1) _ (by simp), List.range_eq_range']
    simp
  refine ⟨?_, ?_, hrun, ?_⟩
  · intro E
    unfold evaluator_next
    constructor
    · intro h
      by_contra hc
      rw [if_neg hc] at h
      exact absurd h (by simp)
    · intro h
      rw [if_pos h]
  · intro E h
    unfold evaluator_next
    rw [if_neg (Nat.not_lt.mpr h)]
  · intro N
    rw [hrun N, List.length_range]

/-- Embeds appends to `collections.deque(maxlen=m)`: add on the right,
discard from the left once the capacity is exceeded. -/
def dequeAppend {α : Type} (maxlen : ℕ) (xs : List α) (x : α) : List α :=
  let ys := xs ++ [x]
  ys.drop (ys.length - maxlen)

/-- Helper: a deque append yields `min (length + 1) maxlen` elements. -/
lemma dequeAppend_length {α : Type} (m : ℕ) (xs : List α) (x : α) :
    (dequeAppend m xs x).length = min (xs.length + 1) m := by
  simp [dequeAppend]
  omega

/-- Helper: under capacity, a deque append is a plain append. -/
lemma dequeAppend_of_length_lt {α : Type} {m : ℕ} {xs : List α} (x : α)
    (h : xs.length < m) : dequeAppend m xs x = xs ++ [x] := by
  dsimp only [dequeAppend]
  rw [List.length_append, List.length_singleton,
    Nat.sub_eq_zero_of_le (by omega), List.drop_zero]

/-- Embeds the state of `StabilizingPredictionsStopper`
(`src/tmp/stopping/stoppers.py`): a deque of capacity `windows` holding
agreement scores — `none` standing for the float NaN — plus the previous
call's prediction array. -/
structure SPState where
  windows : ℕ
  threshold : ℚ
  agreement_scores : List (Option ℚ)
  prv_stop_set_preds : Option (List ℤ)

/-- Fresh stopper, from `__init__(windows, threshold)`. -/
def SPState.init (w : ℕ) (t : ℚ) : SPState := ⟨w, t, [], none⟩

/-- The agreement score one call computes: NaN (`none`) on the very first
call, 1.0 when the predictions equal the previous call's, else
`cohen_kappa_score` — an unmodified third-party function (sklearn),
abstracted as the parameter `kappa`, with `none` again standing for a NaN
result. -/
def spAgreement (kappa : List ℤ → List ℤ → Option ℚ) (s : SPState)
    (preds : List ℤ) : Option ℚ :=
  match s.prv_stop_set_preds with
  | none => none
  | some prv => if prv = preds then some 1 else kappa prv preds

/-- Embeds `np.mean(scores) > threshold` over a window that may hold NaN:
the mean of a window containing NaN (or of an empty window) is NaN, and a
NaN comparison is always false. -/
def nanMeanGT (scores : List (Option ℚ)) (t : ℚ) : Bool :=
  match scores.mapM id with
  | none => false
  | some vs => if vs.isEmpty then false else decide (t < vs.sum / (vs.length : ℚ))

/-- Embeds `StabilizingPredictionsStopper.__call__`: compute the
agreement, append it to the window, remember the predictions; return
false while the window holds fewer than `windows` scores, else compare
the window mean against the threshold. -/
def spCall (kappa : List ℤ → List ℤ → Option ℚ) (s : SPState)
    (preds : List ℤ) : Bool × SPState :=
  let scores := dequeAppend s.windows s.agreement_scores (spAgreement kappa s preds)
  let s' := { s with agreement_scores := scores, prv_stop_set_preds := some preds }
  if scores.length < s.windows then (false, s')
  else (nanMeanGT scores s.threshold, s')

/-- Helper: the window after a call is the deque append of the computed
agreement score (both branches of the call update it identically). -/
lemma spCall_scores (kappa : List ℤ → List ℤ → Option ℚ) (s : SPState)
    (preds : List ℤ) :
    (spCall kappa s preds).2.agreement_scores =
      dequeAppend s.windows s.agreement_scores (spAgreement kappa s preds) := by
  dsimp only [spCall]
  split <;> rfl

/-- Helper: the returned flag as a function of the updated window. -/
lemma spCall_fst (kappa : List ℤ → List ℤ → Option ℚ) (s : SPState)
    (preds : List ℤ) :
    (spCall kappa s preds).1 =
      if (dequeAppend s.windows s.agreement_scores
            (spAgreement kappa s preds)).length < s.windows
      then false
      else nanMeanGT (dequeAppend s.windows s.agreement_scores
            (spAgreement kappa s preds)) s.threshold := by
  dsimp only [spCall]
  split <;> rfl

/-- C6: each `StabilizingPredictionsStopper` call computes an agreement
that is NaN on the very first call, 1.0 when the incoming predictions
equal the previous call's, and Cohen's kappa otherwise; it records that
score in the window; it returns false whenever the window holds fewer
than `windows` scores; and it returns true exactly when the window holds
`windows` scores whose mean exceeds the threshold (a mean involving NaN
exceeds nothing). -/
theorem claim_c6_stabilizing_predictions_behaviour :
    (∀ (kappa : List ℤ → List ℤ → Option ℚ) (s : SPState) preds,
      s.prv_stop_set_preds = none → spAgreement kappa s preds = none) ∧
    (∀ (kappa : List ℤ → List ℤ → Option ℚ) (s : SPState) preds,
      s.prv_stop_set_preds = some preds → spAgreement kappa s preds = some 1) ∧
    (∀ (kappa : List ℤ → List ℤ → Option ℚ) (s : SPState) preds prv,
      s.prv_stop_set_preds = some prv → prv ≠ preds →
      spAgreement kappa s preds = kappa prv preds) ∧
    (∀ (kappa : List ℤ → List ℤ → Option ℚ) (s : SPState) preds,
      (spCall kappa s preds).2.agreement_scores =
        dequeAppend s.windows s.agreement_scores (spAgreement kappa s preds) ∧
      (spCall kappa s preds).2.prv_stop_set_preds = some preds) ∧
    (∀ (kappa : List ℤ → List ℤ → Option ℚ) (s : SPState) preds,
      (spCall kappa s preds).2.agreement_scores.length < s.windows →
      (spCall kappa s preds).1 = false) ∧
    (∀ (kappa : List ℤ → List ℤ → Option ℚ) (s : SPState) preds,
      (spCall kappa s preds).1 = true ↔
        ((spCall kappa s preds).2.agreement_scores.length = s.windows ∧
          nanMeanGT (spCall kappa s preds).2.agreement_scores s.threshold = true)) := by
  refine ⟨?_, ?_, ?_, ?_, ?_, ?_⟩
  · intro kappa s preds h
    simp [spAgreement, h]
  · intro kappa s preds h
    simp [spAgreement, h]
  · intro kappa s preds prv h hne
    simp [spAgreement, h, hne]
  · intro kappa s preds
    refine ⟨spCall_scores kappa s preds, ?_⟩
    dsimp only [spCall]
    split <;> rfl
  · intro kappa s preds h
    rw [spCall_scores] at h
    rw [spCall_fst, if_pos h]
  · intro kappa s preds
    rw [spCall_fst, spCall_scores]
    have hlen := dequeAppend_length s.windows s.agreement_scores
      (spAgreement kappa s preds)
    split
    · rename_i hlt
      simp [Nat.ne_of_lt hlt]
    · rename_i hge
      have heq : (dequeAppend s.windows s.agreement_scores
          (spAgreement kappa s preds)).length = s.windows := by omega
      simp [heq]

/-- Mode of `ChangingConfidenceStopper`: `"D"` demands strict decrease,
`"N"` non-increase. -/
inductive CCMode where
  | D
  | N
deriving DecidableEq, Repr

/-- Embeds the state of `ChangingConfidenceStopper`: a deque of capacity
`windows` holding mean confidence values. -/
structure CCState where
  windows : ℕ
  mode : CCMode
  conf_scores : List ℚ

/-- Fresh stopper, from `__init__(windows, mode)`. -/
def CCState.init (w : ℕ) (m : CCMode) : CCState := ⟨w, m, []⟩

/-- Mean of a rational list, embedding `np.mean` on nonempty input (on an
empty array `np.mean` is NaN; the claims only apply it to nonempty
confidence arrays). -/
def listMean (xs : List ℚ) : ℚ := xs.sum / (xs.length : ℚ)

/-- Embeds `ChangingConfidenceStopper.__call__`: take the incoming mean
`c`; while the window is not full, append and return false; once full,
popleft the oldest value `prv`, append `c`, and return whether every
value in the window compares below `prv` (strictly for mode D, weakly for
mode N).  A popleft on an empty deque — reachable only with
`windows = 0` — raises IndexError, mapped to `InvalidInput`. -/
def ccCall (s : CCState) (confs : List ℚ) : Except Err (Bool × CCState) :=
  let c := listMean confs
  if s.conf_scores.length < s.windows then
    .ok (false, { s with conf_scores := s.conf_scores ++ [c] })
  else
    match s.conf_scores with
    | [] => .error .InvalidInput
    | prv :: rest =>
      let w := dequeAppend s.windows rest c
      let stop :=
        match s.mode with
        | .D => w.all (fun x => decide (x < prv))
        | .N => w.all (fun x => decide (x ≤ prv))
      .ok (stop, { s with conf_scores := w })

/-- C7: each `ChangingConfidenceStopper` call takes the mean `c` of the
incoming (nonempty) confidence array; while the window holds fewer than
`windows` values it appends `c` and returns false; once the window is
full it pops the oldest value `prv`, appends `c`, and returns true
exactly when every value then in the window (including `c`) is strictly
below `prv` in mode D, or weakly below `prv` in mode N. -/
theorem claim_c7_changing_confidence_behaviour :
    (∀ (s : CCState) (confs : List ℚ), confs ≠ [] →
      s.conf_scores.length < s.windows →
      ccCall s confs =
        .ok (false, { s with conf_scores := s.conf_scores ++ [listMean confs] })) ∧
    (∀ (s : CCState) (confs : List ℚ) (prv : ℚ) (rest : List ℚ), confs ≠ [] →
      s.conf_scores = prv :: rest → s.conf_scores.length = s.windows →
      ccCall s confs =
        .ok ((match s.mode with
              | .D => (rest ++ [listMean confs]).all (fun x => decide (x < prv))
              | .N => (rest ++ [listMean confs]).all (fun x => decide (x ≤ prv))),
             { s with conf_scores := rest ++ [listMean confs] })) := by
  constructor
  · intro s confs _ hlt
    unfold ccCall
    rw [if_pos hlt]
  · intro s confs prv rest _ hsc hlen
    have hrest : rest.length + 1 = s.windows := by
      rw [← hlen, hsc, List.length_cons]
    have hda : dequeAppend s.windows rest (listMean confs) =
        rest ++ [listMean confs] :=
      dequeAppend_of_length_lt _ (by omega)
    unfold ccCall
    rw [if_neg (by omega : ¬ s.conf_scores.length < s.windows)]
    rw [hsc]
    simp only [hda]

/-- C7 witness on this claim's fresh-window and full-window phases:
a `windows = 2`, mode-D stopper returns false on its first two calls
(appending means 5 then 4) and true on a third call with mean 3, since 3
and the retained 4 are both strictly below the popped oldest value 5. -/
theorem claim_c7_witness :
    ccCall (CCState.init 2 .D) [5] =
      .ok (false, { windows := 2, mode := .D, conf_scores := [5] }) ∧
    ccCall { windows := 2, mode := .D, conf_scores := [5] } [4] =
      .ok (false, { windows := 2, mode := .D, conf_scores := [5, 4] }) ∧
    ccCall { windows := 2, mode := .D, conf_scores := [5, 4] } [3] =
      .ok (true, { windows := 2, mode := .D, conf_scores := [4, 3] }) := by
  refine ⟨?_, ?_, ?_⟩
  · have h := (claim_c7_changing_confidence_behaviour).1 (CCState.init 2 .D) [5]
      (by decide) (by decide)
    rw [h]
    norm_num [listMean, CCState.init]
  · have h := (claim_c7_changing_confidence_behaviour).1
      { windows := 2, mode := .D, conf_scores := [5] } [4] (by decide) (by decide)
    rw [h]
    norm_num [listMean]
  · have h := (claim_c7_changing_confidence_behaviour).2
      { windows := 2, mode := .D, conf_scores := [5, 4] } [3] 5 [4]
      (by decide) rfl rfl
    rw [h]
    norm_num [listMean]

/-- Embeds the state of `ClassificationChangeStopper`: a deque of
capacity `windows` holding full unlabeled-pool prediction arrays. -/
structure ClassChangeState where
  windows : ℕ
  unlabeled_preds : List (List ℤ)

/-- Fresh stopper, from `__init__(windows)`. -/
def ClassChangeState.init (w : ℕ) : ClassChangeState := ⟨w, []⟩

/-- Embeds `ClassificationChangeStopper.__call__`: append the predictions
to the window; return false while the window holds fewer than `windows`
arrays, else return whether each adjacent pair of the `windows` stored
arrays (indices `0 .. windows - 2`) is identical. -/
def classChangeCall (s : ClassChangeState) (preds : List ℤ) :
    Bool × ClassChangeState :=
  let w := dequeAppend s.windows s.unlabeled_preds preds
  let s' := { s with unlabeled_preds := w }
  if w.length < s.windows then (false, s')
  else ((List.range (s.windows - 1)).all (fun i => decide (w[i]? = w[i + 1]?)), s')

/-- C10: a fresh `ClassificationChangeStopper` with window capacity 1
returns true on its very first call, whatever the prediction array: the
single-slot window is full after one append and the adjacent-pair check
ranges over `range(0)`, which is vacuously satisfied. -/
theorem claim_c10_window_one_stops_immediately (preds : List ℤ) :
    classChangeCall (ClassChangeState.init 1) preds =
      (true, { windows := 1, unlabeled_preds := [preds] }) := rfl

/-- A filesystem path, reduced to the one attribute `get_highest_path`
reads: its stem (final component without suffix). -/
structure PyPath where
  stem : String
deriving DecidableEq, Repr

/-- Embeds Python `str.lstrip(chars)`: drop the longest run of leading
characters drawn from the set `chars`; the empty set — the explicit
default of `get_highest_path` — strips nothing. -/
def pyLstrip (chars : String) (s : String) : String :=
  ⟨s.data.dropWhile (fun c => chars.data.contains c)⟩

/-- Embeds Python `str.rstrip(chars)`: symmetric on the right. -/
def pyRstrip (chars : String) (s : String) : String :=
  ⟨(s.data.reverse.dropWhile (fun c => chars.data.contains c)).reverse⟩

/-- Decimal digit run for `int(...)`: `none` when empty or any character
is not a digit. -/
def parseDigits (cs : List Char) : Option ℕ :=
  if cs.isEmpty then none
  else cs.foldl (fun acc c =>
    acc.bind (fun n => if c.isDigit then some (10 * n + (c.toNat - 48)) else none))
    (some 0)

/-- Embeds Python `int(s)` on decimal string input: optional surrounding
spaces, an optional sign, then one or more digits; anything else raises
ValueError (`none` here).  Python also accepts other whitespace kinds and
underscore digit grouping; the stems this repository feeds in are plain
digit runs, where the two parsers agree. -/
def pyInt (s : String) : Option ℤ :=
  let cs := ((s.data.dropWhile (fun c => c = ' ')).reverse.dropWhile
    (fun c => c = ' ')).reverse
  match cs with
  | '-' :: rest => (parseDigits rest).map (fun n => -(n : ℤ))
  | '+' :: rest => (parseDigits rest).map (fun n => (n : ℤ))
  | _ => (parseDigits cs).map (fun n => (n : ℤ))

/-- The sort key `get_highest_path` computes for one path:
`int(p.stem.lstrip(lstrip).rstrip(rstrip))`, with `none` for the
ValueError of a non-numeric remainder. -/
def stemKey (l r : String) (p : PyPath) : Option ℤ :=
  pyInt (pyRstrip r (pyLstrip l p.stem))

/-- Embeds `mdalth/utils.py`, `get_highest_path`, on an explicit
collection (the `Path` branch only turns a directory into such a
collection first):

    return list(sorted(files, key=lambda p:
        int(p.stem.lstrip(lstrip).rstrip(rstrip))))[-1]

The last element of the stable ascending sort is the last path attaining
the maximal key, computed here as a left fold.  `int` raising ValueError
on any non-numeric stripped stem, and `[-1]` raising IndexError on an
empty collection, are both `InvalidInput`. -/
def get_highest_path (files : List PyPath) (l r : String) : Except Err PyPath :=
  if none ∈ files.map (stemKey l r) then .error .InvalidInput
  else
    match files with
    | [] => .error .InvalidInput
    | p :: rest =>
      .ok (rest.foldl (fun best q =>
        if (stemKey l r best).getD 0 ≤ (stemKey l r q).getD 0 then q else best) p)

/-- Helper: the running best of the maximum fold is one of the inputs. -/
lemma foldl_best_mem (key : PyPath → ℤ) (rest : List PyPath) :
    ∀ p : PyPath,
      rest.foldl (fun best q => if key best ≤ key q then q else best) p ∈
        p :: rest := by
  induction rest with
  | nil =>
    intro p
    simp
  | cons q t ih =>
    intro p
    rw [List.foldl_cons]
    have h := ih (if key p ≤ key q then q else p)
    rw [List.mem_cons] at h ⊢
    rcases h with h | h
    · rw [h]
      split <;> simp
    · simp [h]

/-- Helper: the running best of the maximum fold dominates every input. -/
lemma foldl_best_ge (key : PyPath → ℤ) (rest : List PyPath) :
    ∀ p x : PyPath, x ∈ p :: rest →
      key x ≤ key (rest.foldl
        (fun best q => if key best ≤ key q then q else best) p) := by
  induction rest with
  | nil =>
    intro p x hx
    rw [List.mem_singleton] at hx
    rw [hx, List.foldl_nil]
  | cons q t ih =>
    intro p x hx
    rw [List.foldl_cons]
    rcases List.mem_cons.mp hx with hxp | hx'
    · have h1 : key x ≤ key (if key p ≤ key q then q else p) := by
        rw [hxp]
        split <;> omega
      exact le_trans h1 (ih _ _ (List.mem_cons_self _ _))
    · rcases List.mem_cons.mp hx' with hxq | hxt
      · have h1 : key x ≤ key (if key p ≤ key q then q else p) := by
          rw [hxq]
          split <;> omega
        exact le_trans h1 (ih _ _ (List.mem_cons_self _ _))
      · exact ih _ _ (List.mem_cons_of_mem _ hxt)

/-- C8: `get_highest_path` fails with `InvalidInput` on an empty
collection and whenever some stripped stem does not parse as an integer;
when every stripped stem parses, it returns a member path whose key is
maximal in numeric order.  Concretely, over stems `"3"`, `"10"`, `"2"`
it picks `"10"` — numeric, not lexicographic, order. -/
theorem claim_c8_get_highest_path_numeric_max :
    (∀ l r : String, get_highest_path [] l r = .error .InvalidInput) ∧
    (∀ (l r : String) (files : List PyPath),
      (∃ p ∈ files, stemKey l r p = none) →
      get_highest_path files l r = .error .InvalidInput) ∧
    (∀ (l r : String) (files : List PyPath),
      (∀ p ∈ files, (stemKey l r p).isSome) → files ≠ [] →
      ∃ best, get_highest_path files l r = .ok best ∧ best ∈ files ∧
        ∀ q ∈ files, (stemKey l r q).getD 0 ≤ (stemKey l r best).getD 0) ∧
    get_highest_path [⟨"3"⟩, ⟨"10"⟩, ⟨"2"⟩] "" "" = .ok ⟨"10"⟩ := by
  refine ⟨?_, ?_, ?_, by decide⟩
  · intro l r
    rfl
  · intro l r files hex
    rcases hex with ⟨p, hp, hkey⟩
    unfold get_highest_path
    rw [if_pos (List.mem_map.mpr ⟨p, hp, hkey⟩)]
  · intro l r files hall hne
    have hnone : ¬ none ∈ files.map (stemKey l r) := by
      intro hmem
      rcases List.mem_map.mp hmem with ⟨p, hp, hkey⟩
      have := hall p hp
      rw [hkey] at this
      exact absurd this (by simp)
    cases files with
    | nil => exact absurd rfl hne
    | cons p rest =>
      refine ⟨rest.foldl (fun best q =>
        if (stemKey l r best).getD 0 ≤ (stemKey l r q).getD 0 then q else best) p,
        ?_, ?_, ?_⟩
      · unfold get_highest_path
        rw [if_neg hnone]
      · exact foldl_best_mem (fun q => (stemKey l r q).getD 0) rest p
      · intro q hq
        exact foldl_best_ge (fun q => (stemKey l r q).getD 0) rest p q hq

end MDALT
